import Mathlib

/-!
Verification development for the REW SPL compliance pipeline
(`build_database.py`, `spl_session_summary.py`).

The Python sources are shallowly embedded below:

* calendar arithmetic (`datetime.weekday`, `datetime.time` comparison) is
  embedded with explicit civil-calendar day counting (`daysFromCivil`,
  the standard days-from-civil algorithm), matching Python's convention
  Monday = 0 … Sunday = 6;
* decibel levels (SPL floats) are modelled as rationals;
* a log file's byte content is abstracted by the outcome of the
  content-determined functions applied to it (`is_valid_rew_file`,
  `parse_header_and_data`, the extended-column check, `extract_location`,
  and the parsed rows); the MD5 content hash is modelled as injective
  content addressing, i.e. `processed_files` stores the content itself.
-/

set_option maxRecDepth 8000

namespace REW

/-- Calendar date (year, month, day), as carried by a Python `datetime`. -/
structure Date where
  year : Nat
  month : Nat
  day : Nat
deriving DecidableEq, Repr

/-- Time of day (hour, minute, second, microsecond), as carried by a Python
`datetime.time`. -/
structure Tod where
  hour : Nat
  minute : Nat
  second : Nat
  micro : Nat
deriving DecidableEq, Repr

/-- A full timestamp, as carried by a Python `datetime`. -/
structure Timestamp where
  date : Date
  tod : Tod
deriving DecidableEq, Repr

/-- Microseconds since midnight; Python compares `time` values
lexicographically on (hour, minute, second, microsecond), which for in-range
fields is comparison of this value. -/
def todVal (t : Tod) : Nat :=
  ((t.hour * 60 + t.minute) * 60 + t.second) * 1000000 + t.micro

/-- Python `a <= b` on `datetime.time` values. -/
def todLe (a b : Tod) : Bool :=
  decide (todVal a ≤ todVal b)

/-- Days since 1970-01-01 on the proleptic Gregorian calendar (the standard
days-from-civil algorithm), embedding the calendar arithmetic behind
Python's `datetime`. -/
def daysFromCivil (d : Date) : Int :=
  let y : Int := if d.month ≤ 2 then (d.year : Int) - 1 else (d.year : Int)
  let era : Int := (if 0 ≤ y then y else y - 399) / 400
  let yoe : Int := y - era * 400
  let m : Int := (d.month : Int)
  let doy : Int := (153 * (if 2 < d.month then m - 3 else m + 9) + 2) / 5 + (d.day : Int) - 1
  let doe : Int := yoe * 365 + yoe / 4 - yoe / 100 + doy
  era * 146097 + doe - 719468

/-- Python `datetime.weekday()`: Monday = 0 … Sunday = 6
(1970-01-01 was a Thursday, weekday 3). -/
def pyWeekday (d : Date) : Nat :=
  ((daysFromCivil d + 3) % 7).toNat

/-- Microseconds since the epoch; total order on timestamps. -/
def tsVal (ts : Timestamp) : Int :=
  daysFromCivil ts.date * 86400000000 + (todVal ts.tod : Int)

/-- Membership of a timestamp in a weekly session window, from
`build_database.py` lines 253-260 (`spl_session_summary.py` lines 85-88
define the identical function).  `start <= end` is the non-wrapping case;
otherwise the window is taken to wrap midnight. -/
def session_includes (dt : Timestamp) (weekday : Nat) (start stop : Tod) : Bool :=
  if todLe start stop then
    decide (pyWeekday dt.date = weekday) && todLe start dt.tod && todLe dt.tod stop
  else
    (decide (pyWeekday dt.date = weekday) && todLe start dt.tod) ||
    (decide ((pyWeekday dt.date + 1) % 7 = weekday) && todLe dt.tod stop)

/-- Day/night classification, from `spl_session_summary.py` lines 108-116. -/
def is_day (ts : Timestamp) : Bool :=
  let wd := pyWeekday ts.date
  let t := ts.tod
  if (wd == 6 || wd == 0 || wd == 1 || wd == 2 || wd == 3) &&
      (todLe ⟨10, 0, 0, 0⟩ t && todLe t ⟨23, 59, 0, 0⟩) then
    true
  else if wd == 4 && (todLe ⟨10, 0, 0, 0⟩ t || todLe t ⟨1, 0, 0, 0⟩) then
    true
  else if wd == 5 && (todLe ⟨10, 0, 0, 0⟩ t || todLe t ⟨1, 0, 0, 0⟩) then
    true
  else
    false

/-- One parsed data row of a REW log (the output of `parse_header_and_data`
plus the derived absolute timestamp), `build_database.py` lines 155-169. -/
structure RawRow where
  ts : Timestamp
  lcs : ℚ
  lceq : ℚ
  lceq1m : ℚ
  lceq10m : ℚ
  lzpeak : ℚ
deriving DecidableEq, Repr

/-- A log file's byte content, abstracted by the outcomes of the
content-determined per-file functions of `build_database.py`:
`is_valid_rew_file` (lines 126-139), whether `parse_header_and_data`
succeeds (lines 155-169, 200-205), whether the parsed frame has the
`lceq1m`/`lceq10m`/`lzpeak` columns (line 207), the parsed rows, and
`extract_location` (lines 142-152).  Each of those reads only the bytes of
the file, never its name or path, so byte-identical files yield equal
`FileContent` values.  The MD5 hash of line 117-122 is modelled as injective
content addressing: `processed_files` stores the `FileContent` itself. -/
structure FileContent where
  isValidRew : Bool
  parseOk : Bool
  hasExtended : Bool
  rows : List RawRow
  location : String
deriving DecidableEq, Repr

/-- A file on disk: its path (`fp` in the source) plus its content. -/
structure IngestFile where
  path : String
  content : FileContent
deriving DecidableEq, Repr

/-- `MIN_SPL_LIMIT = 50.0`, `build_database.py` line 50. -/
def MIN_SPL_LIMIT : ℚ := 50

/-- The plausibility filter of `build_database.py` lines 215-220: a row is
kept iff all four decibel fields are `>= MIN_SPL_LIMIT`. -/
def plausibleRow (r : RawRow) : Bool :=
  decide (MIN_SPL_LIMIT ≤ r.lcs) && decide (MIN_SPL_LIMIT ≤ r.lceq) &&
  decide (MIN_SPL_LIMIT ≤ r.lceq1m) && decide (MIN_SPL_LIMIT ≤ r.lceq10m)

/-- One row of the `spl_data` table (`build_database.py` lines 90-102):
columns timestamp, lceq, lcs, lceq1m, lceq10m, lzpeak, source, location.
`lzpeak` is nullable (`Option`): the insert of lines 213-229 never sets it. -/
structure SplDataRow where
  timestamp : Timestamp
  lceq : ℚ
  lcs : ℚ
  lceq1m : ℚ
  lceq10m : ℚ
  lzpeak : Option ℚ
  source : String
  location : String
deriving DecidableEq, Repr

/-- The row actually inserted by `build_database.py` lines 213-229:
`spl_rows = df[['timestamp','lceq','lceq1m','lceq10m','lcs']]` plus
`source = fp` and `location`; the `lzpeak` column of the table is left
unset (NULL). -/
def mkSplRow (f : IngestFile) (r : RawRow) : SplDataRow :=
  { timestamp := r.ts, lceq := r.lceq, lcs := r.lcs, lceq1m := r.lceq1m,
    lceq10m := r.lceq10m, lzpeak := none, source := f.path,
    location := f.content.location }

/-- The mutable store of the ingestion run: the `spl_data` table, the
`processed_files` table (content-addressed, see `FileContent`), and the
in-memory `bad_files` list flushed to the report at end of run
(`build_database.py` lines 51, 236-238). -/
structure DBState where
  splData : List SplDataRow
  processed : List FileContent
  badFiles : List String
deriving DecidableEq, Repr

/-- The store before the first run: empty tables, no bad files. -/
def initState : DBState := ⟨[], [], []⟩

/-- The per-file body of the ingestion loop, `build_database.py`
lines 189-232: skip if the content hash is in `processed_files`; log to
`bad_files` and skip if `is_valid_rew_file` fails or parsing raises; skip
(without logging) if an extended column is missing; filter implausible rows
and skip if none survive; otherwise append the surviving rows to `spl_data`
and record the hash in `processed_files`. -/
def ingestStep (st : DBState) (f : IngestFile) : DBState :=
  if f.content ∈ st.processed then st
  else if !f.content.isValidRew then { st with badFiles := st.badFiles ++ [f.path] }
  else if !f.content.parseOk then { st with badFiles := st.badFiles ++ [f.path] }
  else if !f.content.hasExtended then st
  else
    let rows := f.content.rows.filter plausibleRow
    if rows = [] then st
    else { st with splData := st.splData ++ rows.map (mkSplRow f),
                   processed := st.processed ++ [f.content] }

/-- The whole ingestion pass over the files the directory walk yields, in
order (`build_database.py` lines 178-232). -/
def runIngest (st : DBState) (fs : List IngestFile) : DBState :=
  fs.foldl ingestStep st

/-- Rounding to one decimal place, modelling both Python's `round(x, 1)`
(`build_database.py` line 268) and SQLite's `ROUND(lceq,1)` (line 244) as
exact decimal rounding of a rational to the nearest tenth (their divergence
on exact half-tenths is a binary floating-point artifact not modelled). -/
def round1 (x : ℚ) : ℚ := ((⌊x * 10 + 1 / 2⌋ : ℤ) : ℚ) / 10

/-- The session-tag uniqueness key `(session, date, time, round(lceq,1),
source)` of `build_database.py` lines 244-245 and 269. -/
structure SessKey where
  session : String
  date : Date
  time : Tod
  lceq : ℚ
  source : String
deriving DecidableEq, Repr

/-- One row of the `sessions` table (`build_database.py` lines 76-88):
columns session, date, time, lceq, source, plot (nullable), location. -/
structure SessionRow where
  session : String
  date : Date
  time : Tod
  lceq : ℚ
  source : String
  plot : Option String
  location : String
deriving DecidableEq, Repr

/-- The key read back from a persisted `sessions` row by
`SELECT session, date, time, ROUND(lceq,1), source FROM sessions`
(`build_database.py` line 244). -/
def storedKey (r : SessionRow) : SessKey :=
  ⟨r.session, r.date, r.time, round1 r.lceq, r.source⟩

/-- One recurring weekly session window `(label, weekday, start_time,
end_time)` (`build_database.py` lines 53-67). -/
structure Window where
  label : String
  weekday : Nat
  start : Tod
  stop : Tod
deriving DecidableEq, Repr

/-- The fixed window list `SESSIONS` of `build_database.py` lines 54-67
(`spl_session_summary.py` lines 57-70 list the same windows). -/
def SESSIONS : List Window := [
  ⟨"Thursday_21-00", 3, ⟨21, 0, 0, 0⟩, ⟨23, 59, 59, 0⟩⟩,
  ⟨"Friday_00-01",   4, ⟨0, 0, 0, 0⟩,  ⟨1, 0, 0, 0⟩⟩,
  ⟨"Friday_01-04",   4, ⟨1, 0, 0, 0⟩,  ⟨4, 0, 0, 0⟩⟩,
  ⟨"Friday_21-00",   4, ⟨21, 0, 0, 0⟩, ⟨23, 59, 59, 0⟩⟩,
  ⟨"Saturday_00-01", 5, ⟨0, 0, 0, 0⟩,  ⟨1, 0, 0, 0⟩⟩,
  ⟨"Saturday_01-04", 5, ⟨1, 0, 0, 0⟩,  ⟨4, 0, 0, 0⟩⟩,
  ⟨"Saturday_21-00", 5, ⟨21, 0, 0, 0⟩, ⟨23, 59, 59, 0⟩⟩,
  ⟨"Sunday_00-01",   6, ⟨0, 0, 0, 0⟩,  ⟨1, 0, 0, 0⟩⟩,
  ⟨"Sunday_01-04",   6, ⟨1, 0, 0, 0⟩,  ⟨4, 0, 0, 0⟩⟩,
  ⟨"Sunday_21-00",   6, ⟨21, 0, 0, 0⟩, ⟨23, 59, 59, 0⟩⟩,
  ⟨"Monday_00-01",   0, ⟨0, 0, 0, 0⟩,  ⟨1, 0, 0, 0⟩⟩,
  ⟨"Monday_01-04",   0, ⟨1, 0, 0, 0⟩,  ⟨4, 0, 0, 0⟩⟩]

/-- The key built for a reading under a window label, `build_database.py`
lines 264-269: the reading's own date and time-of-day, its lceq rounded to
one decimal, and its source. -/
def tagKey (label : String) (r : SplDataRow) : SessKey :=
  ⟨label, r.timestamp.date, r.timestamp.tod, round1 r.lceq, r.source⟩

/-- One emitted session tag, `(*row_key, None, location)` of
`build_database.py` line 272. -/
structure SessTag where
  key : SessKey
  location : String
deriving DecidableEq, Repr

/-- The `sessions` row a tag is inserted as (`build_database.py`
lines 276-281): `plot` starts NULL. -/
def tagToRow (t : SessTag) : SessionRow :=
  ⟨t.key.session, t.key.date, t.key.time, t.key.lceq, t.key.source, none, t.location⟩

/-- The body of the tagging double loop for one (window, reading) pair,
`build_database.py` lines 262-272: when the reading falls in the window,
emit its key unless it is in `seen` (first component of the state) or in
the persisted key set. -/
def allocStep (existing : List SessKey) (st : List SessKey × List SessTag)
    (w : Window) (r : SplDataRow) : List SessKey × List SessTag :=
  if session_includes r.timestamp w.weekday w.start w.stop then
    let k := tagKey w.label r
    if k ∉ st.1 ∧ k ∉ existing then (k :: st.1, st.2 ++ [⟨k, r.location⟩])
    else st
  else st

/-- The full tagging double loop (windows outer, readings inner),
`build_database.py` lines 250-272, from a given `seen`/`session_data`
state. -/
def allocFold (existing : List SessKey) (windows : List Window)
    (rows : List SplDataRow) (st : List SessKey × List SessTag) :
    List SessKey × List SessTag :=
  windows.foldl (fun acc w => rows.foldl (fun acc2 r => allocStep existing acc2 w r) acc) st

/-- One allocation run: the `session_data` list the tagging loop emits
starting from empty `seen` and `session_data`. -/
def allocateRun (existing : List SessKey) (windows : List Window)
    (rows : List SplDataRow) : List SessTag :=
  (allocFold existing windows rows ([], [])).2

/-- The (window, reading) pairs the tagging double loop visits, in
iteration order. -/
def allocPairs (windows : List Window) (rows : List SplDataRow) :
    List (Window × SplDataRow) :=
  windows.flatMap (fun w => rows.map (fun r => (w, r)))

/-- `allocStep` applied to one (window, reading) pair. -/
def pairStep (existing : List SessKey) (st : List SessKey × List SessTag)
    (p : Window × SplDataRow) : List SessKey × List SessTag :=
  allocStep existing st p.1 p.2

/-- Invariant of the tagging loop state: every emitted tag's key is outside
the persisted key set and has a tenths-grid lceq, the emitted keys repeat
nowhere, and `seen` holds exactly the emitted keys. -/
def AllocInv (existing : List SessKey) (st : List SessKey × List SessTag) : Prop :=
  (∀ t ∈ st.2, t.key ∉ existing ∧ round1 t.key.lceq = t.key.lceq) ∧
  (st.2.map SessTag.key).Nodup ∧
  (∀ k, k ∈ st.1 ↔ k ∈ st.2.map SessTag.key)

/-- `GAIN_TO_FACADE = 18.9 * 0` (`spl_session_summary.py` line 40): the
facade-gain correction, currently zeroed. -/
def GAIN_TO_FACADE : ℚ := 18.9 * 0

/-- `LIMIT_DAY = 90.0` dBC (`spl_session_summary.py` line 41). -/
def LIMIT_DAY : ℚ := 90

/-- `LIMIT_NIGHT = 80.0` dBC (`spl_session_summary.py` line 42). -/
def LIMIT_NIGHT : ℚ := 80

/-- `BREACH_WINDOW = timedelta(minutes=1.5)` (`spl_session_summary.py`
line 43), in seconds.  The constant is defined and never used again in the
script. -/
def BREACH_WINDOW : ℚ := 90

/-- One row of the frame `spl_session_summary.py` loads at lines 76-79:
`SELECT timestamp, lcs, lceq, lceq1m, lceq10m, location FROM spl_data`. -/
structure SSRow where
  timestamp : Timestamp
  lcs : ℚ
  lceq : ℚ
  lceq1m : ℚ
  lceq10m : ℚ
  location : String
deriving DecidableEq, Repr

/-- One session-mapped reading, `{**row, 'Session': session_id, 'Epoch':
epoch}` of `spl_session_summary.py` line 98.  The session id
`f"{sess_date}_{label}"` is modelled as the (date, label) pair. -/
structure TaggedRow where
  base : SSRow
  sessDate : Date
  sessLabel : String
  epoch : Timestamp
deriving DecidableEq, Repr

/-- Insertion of a date into a date list sorted ascending by the civil day
number. -/
def insertDate (d : Date) (l : List Date) : List Date :=
  match l with
  | [] => [d]
  | x :: xs => if daysFromCivil d ≤ daysFromCivil x then d :: x :: xs else x :: insertDate d xs

/-- Ascending insertion sort of a date list. -/
def sortDates (l : List Date) : List Date := l.foldr insertDate []

/-- The group keys of `sel.groupby(sel['timestamp'].dt.date)`
(`spl_session_summary.py` line 94): the distinct dates of the selected
rows, ascending (pandas sorts group keys). -/
def groupDates (sel : List SSRow) : List Date :=
  sortDates (sel.map (fun r => r.timestamp.date)).dedup

/-- `daily_group['timestamp'].min()` (`spl_session_summary.py` line 95);
the default is never reached, the groups being non-empty. -/
def minTimestamp (l : List SSRow) (d : Date) : Timestamp :=
  match l with
  | [] => ⟨d, ⟨0, 0, 0, 0⟩⟩
  | h :: t => t.foldl (fun m r => if tsVal r.timestamp < tsVal m then r.timestamp else m) h.timestamp

/-- The session-allocation loop of `spl_session_summary.py` lines 90-98:
for each window, select the readings it includes, group them by calendar
date, and tag each reading of a daily group with the session id
(date, label) and the group's earliest timestamp as epoch. -/
def allocRows (df : List SSRow) : List TaggedRow :=
  SESSIONS.foldl (fun acc w =>
    let sel := df.filter (fun r => session_includes r.timestamp w.weekday w.start w.stop)
    (groupDates sel).foldl (fun acc2 d =>
      let grp := sel.filter (fun r => decide (r.timestamp.date = d))
      acc2 ++ grp.map (fun r => ⟨r, d, w.label, minTimestamp grp d⟩)) acc) []

/-- `all_df['Est_LCeq'] = all_df['lceq']` (`spl_session_summary.py`
line 102). -/
def Est_LCeq (r : TaggedRow) : ℚ := r.base.lceq

/-- `all_df['Limit']` (`spl_session_summary.py` line 118): the day limit at
day timestamps, the night limit otherwise. -/
def limitFor (ts : Timestamp) : ℚ := if is_day ts then LIMIT_DAY else LIMIT_NIGHT

/-- `all_df['Breached'] = all_df['Est_LCeq'] > all_df['Limit']`
(`spl_session_summary.py` line 119). -/
def breachedRow (r : TaggedRow) : Bool :=
  decide (Est_LCeq r > limitFor r.base.timestamp)

/-- The fields a per-session summary record would carry (maximum adjusted
LCeq, its timestamp, breach count); the script never constructs one. -/
structure SummaryRecord where
  session : Date × String
  maxLceq : ℚ
  maxTs : Timestamp
  breachCount : Nat
deriving DecidableEq, Repr

/-- The `summary` list of `spl_session_summary.py`: initialized empty at
line 122 and written to the summary CSV at line 133 without ever being
appended to, for any input frame. -/
def summaryRows (_df : List TaggedRow) : List SummaryRecord := []

/-- The `breaches` list of `spl_session_summary.py`: initialized empty at
line 123 and written to the breach CSV at line 134 without ever being
appended to, for any input frame; `BREACH_WINDOW` is never applied. -/
def breachReports (_df : List TaggedRow) : List SummaryRecord := []

/-- The day/night classification as the specification words it: Sunday
through Thursday are day iff the time of day lies within [10:00, 23:59];
Friday and Saturday are day iff the time of day is at least 10:00 or at
most 01:00; every other timestamp is night. -/
def is_day_spec (ts : Timestamp) : Prop :=
  ((pyWeekday ts.date = 6 ∨ pyWeekday ts.date = 0 ∨ pyWeekday ts.date = 1 ∨
      pyWeekday ts.date = 2 ∨ pyWeekday ts.date = 3) ∧
    todVal ⟨10, 0, 0, 0⟩ ≤ todVal ts.tod ∧ todVal ts.tod ≤ todVal ⟨23, 59, 0, 0⟩) ∨
  ((pyWeekday ts.date = 4 ∨ pyWeekday ts.date = 5) ∧
    (todVal ⟨10, 0, 0, 0⟩ ≤ todVal ts.tod ∨ todVal ts.tod ≤ todVal ⟨1, 0, 0, 0⟩))

/-- A plausible parsed row (all decibel fields 85 dB) at Friday 2025-05-23
22:00, for concrete instantiations. -/
def sampleGoodRow : RawRow := ⟨⟨⟨2025, 5, 23⟩, ⟨22, 0, 0, 0⟩⟩, 85, 85, 85, 85, 99⟩

/-- A parsed row entirely below the 50 dB plausibility floor. -/
def sampleLowRow : RawRow := ⟨⟨⟨2025, 5, 23⟩, ⟨22, 0, 1, 0⟩⟩, 40, 40, 40, 40, 99⟩

/-- A well-formed file holding one plausible and one implausible row. -/
def sampleFile : IngestFile :=
  ⟨"20250523/log.txt", ⟨true, true, true, [sampleGoodRow, sampleLowRow], "Balcony"⟩⟩

/-- A file that validates and parses but lacks the extended columns. -/
def noExtFile : IngestFile :=
  ⟨"20250523/noext.txt", ⟨true, true, false, [sampleGoodRow], "Balcony"⟩⟩

/-- A file whose rows all fall below the plausibility floor. -/
def lowFile : IngestFile :=
  ⟨"20250523/low.txt", ⟨true, true, true, [sampleLowRow], "Balcony"⟩⟩

/-- A summary-side reading at Friday 2025-05-23 22:00, exhibiting a
non-empty session instance. -/
def fridayReading : SSRow := ⟨⟨⟨2025, 5, 23⟩, ⟨22, 0, 0, 0⟩⟩, 85, 85, 85, 85, "Balcony"⟩

/-- A summary-side tagged reading at Wednesday 2025-05-21 02:00 (a night
timestamp) carrying the given LCeq. -/
def nightReading (x : ℚ) : TaggedRow :=
  ⟨⟨⟨⟨2025, 5, 21⟩, ⟨2, 0, 0, 0⟩⟩, x, x, x, x, "Balcony"⟩, ⟨2025, 5, 21⟩,
    "Wednesday", ⟨⟨2025, 5, 21⟩, ⟨2, 0, 0, 0⟩⟩⟩

theorem ingestStep_skip (st : DBState) (f : IngestFile)
    (h : f.content ∈ st.processed) : ingestStep st f = st := by
  unfold ingestStep
  rw [if_pos h]

theorem ingestStep_invalid (st : DBState) (f : IngestFile)
    (h0 : f.content ∉ st.processed) (hv : f.content.isValidRew = false) :
    ingestStep st f = { st with badFiles := st.badFiles ++ [f.path] } := by
  unfold ingestStep
  rw [if_neg h0, if_pos (by simp [hv])]

theorem ingestStep_parsefail (st : DBState) (f : IngestFile)
    (h0 : f.content ∉ st.processed) (hv : f.content.isValidRew = true)
    (hp : f.content.parseOk = false) :
    ingestStep st f = { st with badFiles := st.badFiles ++ [f.path] } := by
  unfold ingestStep
  rw [if_neg h0, if_neg (by simp [hv]), if_pos (by simp [hp])]

theorem ingestStep_noext (st : DBState) (f : IngestFile)
    (h0 : f.content ∉ st.processed) (hv : f.content.isValidRew = true)
    (hp : f.content.parseOk = true) (he : f.content.hasExtended = false) :
    ingestStep st f = st := by
  unfold ingestStep
  rw [if_neg h0, if_neg (by simp [hv]), if_neg (by simp [hp]), if_pos (by simp [he])]

theorem ingestStep_emptyfilter (st : DBState) (f : IngestFile)
    (h0 : f.content ∉ st.processed) (hv : f.content.isValidRew = true)
    (hp : f.content.parseOk = true) (he : f.content.hasExtended = true)
    (hr : f.content.rows.filter plausibleRow = []) :
    ingestStep st f = st := by
  unfold ingestStep
  rw [if_neg h0, if_neg (by simp [hv]), if_neg (by simp [hp]), if_neg (by simp [he])]
  simp [hr]

theorem ingestStep_success (st : DBState) (f : IngestFile)
    (h0 : f.content ∉ st.processed) (hv : f.content.isValidRew = true)
    (hp : f.content.parseOk = true) (he : f.content.hasExtended = true)
    (hr : f.content.rows.filter plausibleRow ≠ []) :
    ingestStep st f =
      { st with
        splData := st.splData ++ (f.content.rows.filter plausibleRow).map (mkSplRow f),
        processed := st.processed ++ [f.content] } := by
  unfold ingestStep
  rw [if_neg h0, if_neg (by simp [hv]), if_neg (by simp [hp]), if_neg (by simp [he])]
  exact if_neg hr

/-- Any ingestion step either leaves `spl_data` alone or appends exactly the
plausibility-surviving rows of the file it processes. -/
theorem ingestStep_splData_cases (st : DBState) (f : IngestFile) :
    (ingestStep st f).splData = st.splData ∨
    (ingestStep st f).splData =
      st.splData ++ (f.content.rows.filter plausibleRow).map (mkSplRow f) := by
  by_cases h0 : f.content ∈ st.processed
  · rw [ingestStep_skip st f h0]; exact Or.inl rfl
  cases hv : f.content.isValidRew with
  | false => rw [ingestStep_invalid st f h0 hv]; exact Or.inl rfl
  | true =>
  cases hp : f.content.parseOk with
  | false => rw [ingestStep_parsefail st f h0 hv hp]; exact Or.inl rfl
  | true =>
  cases he : f.content.hasExtended with
  | false => rw [ingestStep_noext st f h0 hv hp he]; exact Or.inl rfl
  | true =>
  by_cases hr : f.content.rows.filter plausibleRow = []
  · rw [ingestStep_emptyfilter st f h0 hv hp he hr]; exact Or.inl rfl
  · rw [ingestStep_success st f h0 hv hp he hr]; exact Or.inr rfl

/-- Every row of `spl_data` after a run was either there before the run or
is the image under `mkSplRow` of a plausibility-surviving parsed row of one
of the ingested files. -/
theorem runIngest_splData_mem (fs : List IngestFile) (st : DBState) (r : SplDataRow)
    (hr : r ∈ (runIngest st fs).splData) :
    r ∈ st.splData ∨
      ∃ f ∈ fs, ∃ raw ∈ f.content.rows, plausibleRow raw = true ∧ r = mkSplRow f raw := by
  induction fs generalizing st with
  | nil => exact Or.inl hr
  | cons f fs ih =>
      rcases ih (ingestStep st f) hr with hmem | ⟨g, hg, raw, hraw, hpl, rfl⟩
      · rcases ingestStep_splData_cases st f with hc | hc
        · rw [hc] at hmem
          exact Or.inl hmem
        · rw [hc] at hmem
          rcases List.mem_append.1 hmem with hmem | hmem
          · exact Or.inl hmem
          · rcases List.mem_map.1 hmem with ⟨raw, hraw, rfl⟩
            have hfil := List.mem_filter.1 hraw
            exact Or.inr ⟨f, List.mem_cons_self _ _, raw, hfil.1, hfil.2, rfl⟩
      · exact Or.inr ⟨g, List.mem_cons_of_mem _ hg, raw, hraw, hpl, rfl⟩

/-- Rounding to a tenth is idempotent: a value already on the tenths grid is
its own rounding. -/
theorem round1_idem (x : ℚ) : round1 (round1 x) = round1 x := by
  unfold round1
  have h10 : ((⌊x * 10 + 1 / 2⌋ : ℤ) : ℚ) / 10 * 10 = ((⌊x * 10 + 1 / 2⌋ : ℤ) : ℚ) := by
    field_simp
  rw [h10, Int.floor_int_add]
  norm_num

theorem allocFold_eq_pairs (existing : List SessKey) (windows : List Window)
    (rows : List SplDataRow) (st : List SessKey × List SessTag) :
    allocFold existing windows rows st =
      (allocPairs windows rows).foldl (pairStep existing) st := by
  induction windows generalizing st with
  | nil => rfl
  | cons w ws ih =>
      show List.foldl _ _ _ = _
      rw [List.foldl_cons, allocPairs, List.flatMap_cons, List.foldl_append, List.foldl_map]
      exact ih _

theorem allocateRun_eq_foldl (existing : List SessKey) (windows : List Window)
    (rows : List SplDataRow) :
    allocateRun existing windows rows =
      ((allocPairs windows rows).foldl (pairStep existing) ([], [])).2 := by
  unfold allocateRun
  rw [allocFold_eq_pairs]

theorem pairStep_inv (existing : List SessKey) (st : List SessKey × List SessTag)
    (p : Window × SplDataRow) (h : AllocInv existing st) :
    AllocInv existing (pairStep existing st p) := by
  obtain ⟨h1, h2, h3⟩ := h
  simp only [pairStep, allocStep]
  split_ifs with hinc hnew
  · refine ⟨?_, ?_, ?_⟩
    · intro t ht
      rcases List.mem_append.1 ht with ht | ht
      · exact h1 t ht
      · rcases List.mem_singleton.1 ht with rfl
        exact ⟨hnew.2, round1_idem _⟩
    · rw [List.map_append, List.map_singleton]
      refine h2.append (List.nodup_singleton _) ?_
      intro a ha hb
      rw [List.mem_singleton] at hb
      subst hb
      exact hnew.1 ((h3 _).2 ha)
    · intro k
      simp only [List.mem_cons, List.map_append, List.map_singleton,
        List.mem_append, List.mem_singleton, h3 k]
      tauto
  · exact ⟨h1, h2, h3⟩
  · exact ⟨h1, h2, h3⟩

theorem foldl_pairStep_inv (existing : List SessKey)
    (ps : List (Window × SplDataRow)) (st : List SessKey × List SessTag)
    (h : AllocInv existing st) :
    AllocInv existing (ps.foldl (pairStep existing) st) := by
  induction ps generalizing st with
  | nil => exact h
  | cons p ps ih => exact ih _ (pairStep_inv _ _ _ h)

theorem pairStep_seen_mono (existing : List SessKey)
    (st : List SessKey × List SessTag) (p : Window × SplDataRow) :
    st.1 ⊆ (pairStep existing st p).1 := by
  simp only [pairStep, allocStep]
  split_ifs with hinc hnew
  · exact fun k hk => List.mem_cons_of_mem _ hk
  · exact fun k hk => hk
  · exact fun k hk => hk

theorem foldl_pairStep_seen_mono (existing : List SessKey)
    (ps : List (Window × SplDataRow)) (st : List SessKey × List SessTag) :
    st.1 ⊆ (ps.foldl (pairStep existing) st).1 := by
  induction ps generalizing st with
  | nil => exact fun k hk => hk
  | cons p ps ih =>
      exact fun k hk => ih _ (pairStep_seen_mono existing st p hk)

theorem pairStep_key_mem (existing : List SessKey)
    (st : List SessKey × List SessTag) (p : Window × SplDataRow)
    (hinc : session_includes p.2.timestamp p.1.weekday p.1.start p.1.stop = true)
    (hE : tagKey p.1.label p.2 ∉ existing) :
    tagKey p.1.label p.2 ∈ (pairStep existing st p).1 := by
  simp only [pairStep, allocStep, hinc, if_true]
  split_ifs with h
  · exact List.mem_cons_self _ _
  · push_neg at h
    by_cases hseen : tagKey p.1.label p.2 ∈ st.1
    · exact hseen
    · exact absurd (h hseen) hE

theorem foldl_pairStep_covers (existing : List SessKey)
    (ps : List (Window × SplDataRow)) (st : List SessKey × List SessTag) :
    ∀ p ∈ ps,
      session_includes p.2.timestamp p.1.weekday p.1.start p.1.stop = true →
      tagKey p.1.label p.2 ∈ existing ∨
        tagKey p.1.label p.2 ∈ (ps.foldl (pairStep existing) st).1 := by
  induction ps generalizing st with
  | nil => intro p hp; cases hp
  | cons q ps ih =>
      intro p hp hinc
      rcases List.mem_cons.1 hp with rfl | hp
      · by_cases hE : tagKey p.1.label p.2 ∈ existing
        · exact Or.inl hE
        · exact Or.inr (foldl_pairStep_seen_mono existing ps _
            (pairStep_key_mem existing st p hinc hE))
      · exact ih _ p hp hinc

theorem foldl_pairStep_id (existing : List SessKey)
    (ps : List (Window × SplDataRow)) (st : List SessKey × List SessTag)
    (h : ∀ p ∈ ps,
      session_includes p.2.timestamp p.1.weekday p.1.start p.1.stop = true →
      tagKey p.1.label p.2 ∈ existing) :
    ps.foldl (pairStep existing) st = st := by
  induction ps generalizing st with
  | nil => rfl
  | cons q ps ih =>
      have hq : pairStep existing st q = st := by
        by_cases hinc : session_includes q.2.timestamp q.1.weekday q.1.start q.1.stop = true
        · simp only [pairStep, allocStep, hinc, if_true]
          rw [if_neg]
          intro hcond
          exact hcond.2 (h q (List.mem_cons_self _ _) hinc)
        · simp only [pairStep, allocStep]
          rw [if_neg hinc]
      rw [List.foldl_cons, hq]
      exact ih st (fun p hp => h p (List.mem_cons_of_mem _ hp))

/-- Claim C3: session allocation is idempotent — every tag the allocator
emits has a uniqueness key that is neither among the keys read back from the
persisted `sessions` table nor emitted earlier in the same run, and a second
allocation run over the same readings and the fixed window list, after the
first run's tags are inserted, emits zero new tags. -/
theorem session_allocation_idempotent (stored : List SessionRow) (rows : List SplDataRow) :
    (∀ t ∈ allocateRun (stored.map storedKey) SESSIONS rows,
        t.key ∉ stored.map storedKey) ∧
    ((allocateRun (stored.map storedKey) SESSIONS rows).map SessTag.key).Nodup ∧
    allocateRun
      ((stored ++ (allocateRun (stored.map storedKey) SESSIONS rows).map tagToRow).map storedKey)
      SESSIONS rows = [] := by
  have hrun := allocateRun_eq_foldl (stored.map storedKey) SESSIONS rows
  obtain ⟨hout, hnodup, hseen⟩ :=
    foldl_pairStep_inv (stored.map storedKey) (allocPairs SESSIONS rows) ([], [])
      ⟨by simp, by simp, by simp⟩
  refine ⟨?_, ?_, ?_⟩
  · intro t ht
    rw [hrun] at ht
    exact (hout t ht).1
  · rw [hrun]
    exact hnodup
  · have hcover2 : ∀ p ∈ allocPairs SESSIONS rows,
        session_includes p.2.timestamp p.1.weekday p.1.start p.1.stop = true →
        tagKey p.1.label p.2 ∈
          ((stored ++ (allocateRun (stored.map storedKey) SESSIONS rows).map tagToRow).map
            storedKey) := by
      intro p hp hinc
      rw [List.map_append]
      rcases foldl_pairStep_covers (stored.map storedKey) (allocPairs SESSIONS rows)
          ([], []) p hp hinc with hmem | hmem
      · exact List.mem_append_left _ hmem
      · have hkeys : tagKey p.1.label p.2 ∈
            (((allocPairs SESSIONS rows).foldl (pairStep (stored.map storedKey))
              ([], [])).2).map SessTag.key :=
          (hseen _).1 hmem
        rcases List.mem_map.1 hkeys with ⟨t, htmem, hkey⟩
        apply List.mem_append_right
        rw [List.map_map]
        have hsk : storedKey (tagToRow t) = t.key := by
          simp only [storedKey, tagToRow]
          rw [(hout t htmem).2]
        have hmm := List.mem_map_of_mem (storedKey ∘ tagToRow) htmem
        rw [hrun]
        have hcomp : (storedKey ∘ tagToRow) t = tagKey p.1.label p.2 := by
          rw [Function.comp_apply, hsk, hkey]
        rw [← hcomp]
        exact hmm
    rw [allocateRun_eq_foldl
        ((stored ++ (allocateRun (stored.map storedKey) SESSIONS rows).map tagToRow).map storedKey)
        SESSIONS rows,
      foldl_pairStep_id _ _ _ hcover2]

theorem is_day_iff (ts : Timestamp) : is_day ts = true ↔ is_day_spec ts := by
  simp only [is_day, is_day_spec, todLe]
  split_ifs with h1 h2 h3
  · simp only [Bool.and_eq_true, Bool.or_eq_true, beq_iff_eq, decide_eq_true_eq] at h1
    refine iff_of_true rfl (Or.inl ⟨?_, h1.2.1, h1.2.2⟩)
    rcases h1.1 with (((h | h) | h) | h) | h
    · exact Or.inl h
    · exact Or.inr (Or.inl h)
    · exact Or.inr (Or.inr (Or.inl h))
    · exact Or.inr (Or.inr (Or.inr (Or.inl h)))
    · exact Or.inr (Or.inr (Or.inr (Or.inr h)))
  · simp only [Bool.and_eq_true, Bool.or_eq_true, beq_iff_eq, decide_eq_true_eq] at h2
    exact iff_of_true rfl (Or.inr ⟨Or.inl h2.1, h2.2⟩)
  · simp only [Bool.and_eq_true, Bool.or_eq_true, beq_iff_eq, decide_eq_true_eq] at h3
    exact iff_of_true rfl (Or.inr ⟨Or.inr h3.1, h3.2⟩)
  · simp only [Bool.and_eq_true, Bool.or_eq_true, beq_iff_eq, decide_eq_true_eq] at h1 h2 h3
    refine iff_of_false (by simp) ?_
    rintro (⟨hw, hle1, hle2⟩ | ⟨hw | hw, hor⟩)
    · refine h1 ⟨?_, hle1, hle2⟩
      rcases hw with h | h | h | h | h
      · exact Or.inl (Or.inl (Or.inl (Or.inl h)))
      · exact Or.inl (Or.inl (Or.inl (Or.inr h)))
      · exact Or.inl (Or.inl (Or.inr h))
      · exact Or.inl (Or.inr h)
      · exact Or.inr h
    · exact h2 ⟨hw, hor⟩
    · exact h3 ⟨hw, hor⟩

/-- Claim C1 (code bug): on the midnight-wrapping window (weekday=4,
start=23:00, end=01:00), `session_includes` accepts Friday 2025-05-23 23:30
and rejects Saturday 2025-05-24 02:00 as the claim says, but it also
rejects Saturday 2025-05-24 00:30, which the claim says is a member: the
wrap branch's `(dt.weekday() + 1) % 7 == weekday` test matches the morning
of the day before the window's weekday, accepting Thursday 2025-05-22
00:30 instead. -/
theorem session_includes_wrap_bug :
    session_includes ⟨⟨2025, 5, 23⟩, ⟨23, 30, 0, 0⟩⟩ 4 ⟨23, 0, 0, 0⟩ ⟨1, 0, 0, 0⟩ = true ∧
    session_includes ⟨⟨2025, 5, 24⟩, ⟨0, 30, 0, 0⟩⟩ 4 ⟨23, 0, 0, 0⟩ ⟨1, 0, 0, 0⟩ = false ∧
    session_includes ⟨⟨2025, 5, 24⟩, ⟨2, 0, 0, 0⟩⟩ 4 ⟨23, 0, 0, 0⟩ ⟨1, 0, 0, 0⟩ = false ∧
    session_includes ⟨⟨2025, 5, 22⟩, ⟨0, 30, 0, 0⟩⟩ 4 ⟨23, 0, 0, 0⟩ ⟨1, 0, 0, 0⟩ = true := by
  decide

/-- Claim C2: ingestion is idempotent on file content.  A file whose
content hash is already in `processed_files` leaves the store entirely
unchanged; for two byte-identical files under any paths, the second
contributes nothing to `spl_data`; and on the success path the shared
readings are inserted exactly once. -/
theorem ingest_content_idempotent :
    (∀ (st : DBState) (f : IngestFile), f.content ∈ st.processed → ingestStep st f = st) ∧
    (∀ (st : DBState) (f1 f2 : IngestFile), f1.content = f2.content →
      (runIngest st [f1, f2]).splData = (ingestStep st f1).splData) ∧
    (∀ (st : DBState) (f1 f2 : IngestFile), f1.content = f2.content →
      f1.content ∉ st.processed → f1.content.isValidRew = true →
      f1.content.parseOk = true → f1.content.hasExtended = true →
      f1.content.rows.filter plausibleRow ≠ [] →
      (runIngest st [f1, f2]).splData =
        st.splData ++ (f1.content.rows.filter plausibleRow).map (mkSplRow f1)) := by
  have hstep2 : ∀ (st : DBState) (f1 f2 : IngestFile), f1.content = f2.content →
      (ingestStep (ingestStep st f1) f2).splData = (ingestStep st f1).splData := by
    intro st f1 f2 heq
    by_cases h0 : f1.content ∈ st.processed
    · rw [ingestStep_skip st f1 h0, ingestStep_skip st f2 (heq ▸ h0)]
    · cases hv : f1.content.isValidRew with
      | false =>
          rw [ingestStep_invalid st f1 h0 hv,
            ingestStep_invalid _ f2 (heq ▸ h0) (heq ▸ hv)]
      | true =>
      cases hp : f1.content.parseOk with
      | false =>
          rw [ingestStep_parsefail st f1 h0 hv hp,
            ingestStep_parsefail _ f2 (heq ▸ h0) (heq ▸ hv) (heq ▸ hp)]
      | true =>
      cases he : f1.content.hasExtended with
      | false =>
          rw [ingestStep_noext st f1 h0 hv hp he,
            ingestStep_noext st f2 (heq ▸ h0) (heq ▸ hv) (heq ▸ hp) (heq ▸ he)]
      | true =>
      by_cases hr : f1.content.rows.filter plausibleRow = []
      · rw [ingestStep_emptyfilter st f1 h0 hv hp he hr,
          ingestStep_emptyfilter st f2 (heq ▸ h0) (heq ▸ hv) (heq ▸ hp) (heq ▸ he) (heq ▸ hr)]
      · rw [ingestStep_success st f1 h0 hv hp he hr]
        rw [ingestStep_skip _ f2 (by rw [← heq]; exact List.mem_append_right _ (List.mem_singleton.2 rfl))]
  refine ⟨fun st f h => ingestStep_skip st f h, fun st f1 f2 heq => hstep2 st f1 f2 heq, ?_⟩
  intro st f1 f2 heq h0 hv hp he hr
  show (ingestStep (ingestStep st f1) f2).splData = _
  rw [hstep2 st f1 f2 heq, ingestStep_success st f1 h0 hv hp he hr]

/-- Claim C4: every row of `spl_data` after an ingestion run from an empty
store satisfies the 50 dB plausibility floor in all four decibel fields. -/
theorem plausibility_floor (fs : List IngestFile) (r : SplDataRow)
    (hr : r ∈ (runIngest initState fs).splData) :
    MIN_SPL_LIMIT ≤ r.lcs ∧ MIN_SPL_LIMIT ≤ r.lceq ∧
      MIN_SPL_LIMIT ≤ r.lceq1m ∧ MIN_SPL_LIMIT ≤ r.lceq10m := by
  rcases runIngest_splData_mem fs initState r hr with h | ⟨f, _, raw, _, hpl, rfl⟩
  · simp [initState] at h
  · simp only [plausibleRow, Bool.and_eq_true, decide_eq_true_eq] at hpl
    exact ⟨hpl.1.1.1, hpl.1.1.2, hpl.1.2, hpl.2⟩

theorem plausibility_floor_witness :
    MIN_SPL_LIMIT ≤ (mkSplRow sampleFile sampleGoodRow).lcs ∧
    MIN_SPL_LIMIT ≤ (mkSplRow sampleFile sampleGoodRow).lceq ∧
    MIN_SPL_LIMIT ≤ (mkSplRow sampleFile sampleGoodRow).lceq1m ∧
    MIN_SPL_LIMIT ≤ (mkSplRow sampleFile sampleGoodRow).lceq10m :=
  plausibility_floor [sampleFile] (mkSplRow sampleFile sampleGoodRow) (by decide)

/-- Claim C5: the day/night classification agrees with the specification's
wording on every timestamp, and on the four quoted examples: Friday 00:30
is day, Friday 09:00 is night, Sunday 11:00 is day, Wednesday 02:00 is
night. -/
theorem day_night_classification :
    (∀ ts : Timestamp, is_day ts = true ↔ is_day_spec ts) ∧
    is_day ⟨⟨2025, 5, 23⟩, ⟨0, 30, 0, 0⟩⟩ = true ∧
    is_day ⟨⟨2025, 5, 23⟩, ⟨9, 0, 0, 0⟩⟩ = false ∧
    is_day ⟨⟨2025, 5, 18⟩, ⟨11, 0, 0, 0⟩⟩ = true ∧
    is_day ⟨⟨2025, 5, 21⟩, ⟨2, 0, 0, 0⟩⟩ = false :=
  ⟨is_day_iff, by decide, by decide, by decide, by decide⟩

/-- Claim C6: a reading is flagged as a breach iff its adjusted LCeq — its
LCeq plus the facade-gain correction, which defaults to zero — strictly
exceeds the applicable day/night limit; at a night timestamp, LCeq 81.2 is
flagged and 79.9 is not. -/
theorem breach_flag_correct :
    (∀ r : TaggedRow, breachedRow r = true ↔
      r.base.lceq + GAIN_TO_FACADE >
        (if is_day r.base.timestamp then LIMIT_DAY else LIMIT_NIGHT)) ∧
    breachedRow (nightReading 81.2) = true ∧
    breachedRow (nightReading 79.9) = false := by
  have hG : GAIN_TO_FACADE = 0 := by norm_num [GAIN_TO_FACADE]
  have hnight : is_day ⟨⟨2025, 5, 21⟩, ⟨2, 0, 0, 0⟩⟩ = false := by decide
  refine ⟨?_, ?_, ?_⟩
  · intro r
    rw [hG, add_zero]
    simp only [breachedRow, Est_LCeq, limitFor, decide_eq_true_eq]
  · simp only [breachedRow, Est_LCeq, limitFor, nightReading, hnight,
      Bool.false_eq_true, if_false, LIMIT_NIGHT, decide_eq_true_eq]
    norm_num
  · simp only [breachedRow, Est_LCeq, limitFor, nightReading, hnight,
      Bool.false_eq_true, if_false, LIMIT_NIGHT, decide_eq_true_eq]
    norm_num

/-- Claim C7 (code bug): the single Friday-22:00 reading is allocated to
the session instance (2025-05-23, Friday_21-00), a non-empty instance, yet
the summary and breach outputs the script writes are empty: `summary` and
`breaches` are never appended to and `BREACH_WINDOW` is never applied. -/
theorem summary_outputs_empty :
    allocRows [fridayReading] ≠ [] ∧
    (allocRows [fridayReading]).map TaggedRow.sessLabel = ["Friday_21-00"] ∧
    summaryRows (allocRows [fridayReading]) = [] ∧
    breachReports (allocRows [fridayReading]) = [] :=
  ⟨by decide, by decide, rfl, rfl⟩

/-- Claim C8 counterexample: a file that validates and parses but lacks the
extended columns is skipped WITHOUT being added to the bad-files list — the
claim says its identifier appears in the bad-files report. -/
theorem missing_columns_not_reported :
    (ingestStep initState noExtFile).badFiles = [] ∧
    noExtFile.content ∉ (ingestStep initState noExtFile).processed := by
  decide

/-- Claim C8 as amended: a file that validates and parses but lacks any of
the extended columns is skipped with a console message only: the bad-files
list is unchanged (its identifier does not reach the bad-files report) and
its content hash is not inserted into `processed_files`; `spl_data` is also
unchanged. -/
theorem missing_columns_skip (st : DBState) (f : IngestFile)
    (hv : f.content.isValidRew = true) (hp : f.content.parseOk = true)
    (he : f.content.hasExtended = false) :
    (ingestStep st f).badFiles = st.badFiles ∧
    (ingestStep st f).processed = st.processed ∧
    (ingestStep st f).splData = st.splData := by
  by_cases h0 : f.content ∈ st.processed
  · rw [ingestStep_skip st f h0]
    exact ⟨rfl, rfl, rfl⟩
  · rw [ingestStep_noext st f h0 hv hp he]
    exact ⟨rfl, rfl, rfl⟩

theorem missing_columns_skip_witness :
    (ingestStep initState noExtFile).badFiles = initState.badFiles ∧
    (ingestStep initState noExtFile).processed = initState.processed ∧
    (ingestStep initState noExtFile).splData = initState.splData :=
  missing_columns_skip initState noExtFile rfl rfl rfl

/-- Claim C9: a file whose rows all fall below the plausibility floor
inserts nothing, its content hash is not recorded in `processed_files`, so
a later run will scan it again (the hash check will not skip it). -/
theorem all_below_floor_rescan (st : DBState) (f : IngestFile)
    (h0 : f.content ∉ st.processed)
    (hv : f.content.isValidRew = true) (hp : f.content.parseOk = true)
    (he : f.content.hasExtended = true)
    (hr : f.content.rows.filter plausibleRow = []) :
    (ingestStep st f).splData = st.splData ∧
    (ingestStep st f).processed = st.processed ∧
    f.content ∉ (ingestStep st f).processed := by
  rw [ingestStep_emptyfilter st f h0 hv hp he hr]
  exact ⟨rfl, rfl, h0⟩

theorem all_below_floor_rescan_witness :
    (ingestStep initState lowFile).splData = initState.splData ∧
    (ingestStep initState lowFile).processed = initState.processed ∧
    lowFile.content ∉ (ingestStep initState lowFile).processed :=
  all_below_floor_rescan initState lowFile (by decide) rfl rfl rfl (by decide)

/-- Claim C10: every row ingestion inserts into `spl_data` leaves the
lzpeak column NULL and is exactly the projection of a parsed raw row onto
(timestamp, lceq, lcs, lceq1m, lceq10m, source, location) — the parsed
lzpeak value is never persisted. -/
theorem lzpeak_never_persisted (fs : List IngestFile) (r : SplDataRow)
    (hr : r ∈ (runIngest initState fs).splData) :
    r.lzpeak = none ∧ ∃ f ∈ fs, ∃ raw ∈ f.content.rows, r = mkSplRow f raw := by
  rcases runIngest_splData_mem fs initState r hr with h | ⟨f, hf, raw, hraw, _, rfl⟩
  · simp [initState] at h
  · exact ⟨rfl, f, hf, raw, hraw, rfl⟩

theorem lzpeak_never_persisted_witness :
    (mkSplRow sampleFile sampleGoodRow).lzpeak = none ∧
    ∃ f ∈ [sampleFile], ∃ raw ∈ f.content.rows,
      mkSplRow sampleFile sampleGoodRow = mkSplRow f raw :=
  lzpeak_never_persisted [sampleFile] (mkSplRow sampleFile sampleGoodRow) (by decide)

end REW
